import Mathlib

/-!
Shallow embedding of the beehive worker-pool core, translated from
`src/include/beehive/task.h` and `src/src/worker.cpp`.

Conventions of the embedding:
* C++ machine integers become `Nat`/`Int`; `uint8_t` priorities stay `Nat`
  with explicit `< 2 ^ 8` bounds where the 8-bit domain matters.
* The opaque callable `std::function<void()>` is modelled as a `Nat` token;
  "executing" a callable means emitting its token into a run log.
* Wall-clock time is an explicit `Nat` (milliseconds) passed to every
  timer operation.
* Components whose source files are not part of the repository snapshot
  (`mq.h`, `pool.h`, `time.h`, `task.cpp`) are modelled from the spec and
  carry a doc comment saying so; everything else is translated directly
  from the C++ sources.
-/

set_option autoImplicit false

namespace Beehive

/-! ## Task (src/include/beehive/task.h) -/

/-- `Task::Priority` is `uint8_t`; its values live in `[0, 2^8)`. -/
abbrev Task.Priority := Nat

/-- `static constexpr Priority MinPriority = 0;` (task.h line 25). -/
def Task.MinPriority : Task.Priority := 0

/-- `static constexpr Priority DefaultPriority = 127;` (task.h line 26). -/
def Task.DefaultPriority : Task.Priority := 127

/-- `static constexpr Priority MaxPriority = 255;` (task.h line 27). -/
def Task.MaxPriority : Task.Priority := 255

/-- The `Task` class of task.h: a stored callable (`std::function<void()>`,
modelled as an opaque `Nat` token) and the one-shot completion signal
(`std::promise<void>` / `std::shared_future<void>`, modelled by its
fulfilled flag).  The class stores no further fields. -/
structure Task where
  mCallable : Nat
  mFulfilled : Bool
  deriving DecidableEq, Repr

/-- Modelled from the spec: `task.cpp` (the body of `Task::run`) is not in
the repository snapshot.  Per §4.1, `run()` invokes the stored callable
exactly once and then fulfills the completion signal.  The invocation is
recorded as the callable's token in the returned run log. -/
def Task.run (t : Task) : Task × List Nat :=
  ({ t with mFulfilled := true }, [t.mCallable])

/-- Modelled from the spec: `pool.h` / `pool.cpp` are not in the repository
snapshot; per §3 and §4.1 a scheduled task carries a priority value in the
8-bit domain next to the callable, the priority being `DefaultPriority`
unless an overload sets it explicitly, and its completion signal is
allocated at construction. -/
structure SchedTask where
  callable : Nat
  priority : Task.Priority
  signalAllocated : Bool
  deriving DecidableEq, Repr

/-- Modelled from the spec: construction from a callable alone. -/
def SchedTask.construct (c : Nat) : SchedTask :=
  { callable := c, priority := Task.DefaultPriority, signalAllocated := true }

/-- Modelled from the spec: the overload that sets the priority explicitly. -/
def SchedTask.constructWithPriority (c : Nat) (p : Task.Priority) : SchedTask :=
  { callable := c, priority := p, signalAllocated := true }

/-! ## Messages and loop results (mq.h, not in the snapshot) -/

/-- Modelled from the spec (§3): `Message` is a tagged signal with kind in
{NOP, EXIT, TASK, DUMP} and no payload; `mq.h` is not in the snapshot but
the kinds are named in worker.cpp. -/
inductive MessageKind where
  | NOP
  | EXIT
  | TASK
  | DUMP
  deriving DecidableEq, Repr

/-- Modelled from the spec (§4.2): `SignalingQueue::Handler::Result`, the
value a handler returns to the dispatch loop. -/
inductive HResult where
  | CONTINUE
  | FINISH
  deriving DecidableEq, Repr

/-! ## TimeCounter (source file not in the snapshot) -/

/-- Modelled from the spec (§3): `TimeCounter` holds a cumulative duration
and a current-interval start marker, present or absent.  Times are `Nat`
milliseconds supplied explicitly. -/
structure TimeCounter where
  accum : Nat
  runningSince : Option Nat
  deriving DecidableEq, Repr

/-- Modelled from the spec: `start()` installs the interval marker;
it may not be called while already started (precondition, not checked). -/
def TimeCounter.start (now : Nat) (c : TimeCounter) : TimeCounter :=
  { c with runningSince := some now }

/-- Modelled from the spec: `stop()` accumulates the elapsed interval into
the cumulative duration and clears the start marker. -/
def TimeCounter.stop (now : Nat) (c : TimeCounter) : TimeCounter :=
  match c.runningSince with
  | some t0 => { accum := c.accum + (now - t0), runningSince := none }
  | none => c

/-- Modelled from the spec: `value()` returns the cumulative duration,
conservatively including the currently open interval if one exists. -/
def TimeCounter.value (now : Nat) (c : TimeCounter) : Nat :=
  match c.runningSince with
  | some t0 => c.accum + (now - t0)
  | none => c.accum

/-! ## Worker statistics (worker.cpp lines 139-173) -/

namespace Worker

/-- `Worker::Stats`: the snapshot with message count, run count, idle and
active cumulative durations (milliseconds). -/
structure Stats where
  messages : Nat
  runs : Nat
  idle : Nat
  active : Nat
  deriving DecidableEq, Repr

/-- `Worker::Stats::operator==` (worker.cpp lines 165-170): field-wise. -/
def Stats.beq (a b : Stats) : Bool :=
  (a.messages == b.messages) &&
  (a.runs == b.runs) &&
  (a.idle == b.idle) &&
  (a.active == b.active)

/-- `Worker::Stats::operator!=` (worker.cpp lines 172-174). -/
def Stats.bne (a b : Stats) : Bool :=
  !(Stats.beq a b)

/-- `Worker::AtomicStats`: the live per-worker counters behind `stats()`.
Field names follow their uses in worker.cpp (`mMessages`, `mRuns`,
`mIdle`, `mActive`); the declaring header is not in the snapshot. -/
structure AtomicStats where
  mMessages : Nat
  mRuns : Nat
  mIdle : TimeCounter
  mActive : TimeCounter
  deriving DecidableEq, Repr

/-- `Worker::AtomicStats::AtomicStats()`: default construction, counters
zero, both timers stopped with nothing accumulated. -/
def AtomicStats.init : AtomicStats :=
  { mMessages := 0, mRuns := 0
    mIdle := { accum := 0, runningSince := none }
    mActive := { accum := 0, runningSince := none } }

/-- `Worker::AtomicStats::message()` (worker.cpp lines 150-152). -/
def AtomicStats.message (st : AtomicStats) : AtomicStats :=
  { st with mMessages := st.mMessages + 1 }

/-- `Worker::AtomicStats::run()` (worker.cpp lines 154-156). -/
def AtomicStats.run (st : AtomicStats) : AtomicStats :=
  { st with mRuns := st.mRuns + 1 }

/-- `Worker::AtomicStats::load()` (worker.cpp lines 141-148): snapshot of
the four fields at time `now`. -/
def AtomicStats.load (now : Nat) (st : AtomicStats) : Stats :=
  { messages := st.mMessages
    runs := st.mRuns
    idle := TimeCounter.value now st.mIdle
    active := TimeCounter.value now st.mActive }

end Worker

/-! ## Worker state and handlers (worker.cpp) -/

/-- The lock identities shared process-wide: the dump serialization mutex
(`static std::mutex gDumpMutex;`, worker.cpp line 33) and the message
queue's own synchronization primitive (inside `mq.h`). -/
inductive LockId where
  | gDumpMutex
  | queueMutex
  deriving DecidableEq, Repr

/-- One event of the diagnostic dump: taking or dropping a lock, or
emitting one output line to the diagnostic sink. -/
inductive DumpEvent where
  | acquire (l : LockId)
  | release (l : LockId)
  | line (s : String)
  deriving DecidableEq, Repr

namespace Worker

/-- The per-worker mutable state visible in worker.cpp: the name string
`mName`, the small integer id `mId` (`int`), and the statistics block
`mStats`.  (The thread and queue handles are modelled by the explicit
loop below.) -/
structure WorkerState where
  mName : String
  mId : Int
  mStats : AtomicStats
  deriving DecidableEq, Repr

/-- The default name built in `Worker::name(const char*)`'s else branch
(worker.cpp lines 88-90): `worker[` ++ id ++ `]` via a stringstream. -/
def defaultName (id : Int) : String :=
  "worker[" ++ toString id ++ "]"

/-- `void Worker::name(const char* n)` (worker.cpp lines 84-92): a null or
empty argument resets the default name; a non-empty string is assigned.
The `const char*` argument is `none` for nullptr, `some s` otherwise, and
`n && n[0]` is the non-null non-empty test. -/
def setName (n : Option String) (w : WorkerState) : WorkerState :=
  match n with
  | some s =>
    if s.isEmpty then { w with mName := defaultName w.mId }
    else { w with mName := s }
  | none => { w with mName := defaultName w.mId }

/-- `const char* Worker::name() const` (worker.cpp lines 80-82): returns
the stored name. -/
def nameOf (w : WorkerState) : String :=
  w.mName

/-- `int Worker::id() const` (worker.cpp lines 94-96). -/
def idOf (w : WorkerState) : Int :=
  w.mId

/-- `void Worker::onBeforeMessage()` (worker.cpp lines 35-39): stop the
idle timer, start the active timer, increment the message count. -/
def onBeforeMessage (now : Nat) (st : AtomicStats) : AtomicStats :=
  AtomicStats.message
    { st with
      mIdle := TimeCounter.stop now st.mIdle
      mActive := TimeCounter.start now st.mActive }

/-- `void Worker::onAfterMessage()` (worker.cpp lines 40-43): stop the
active timer, start the idle timer. -/
def onAfterMessage (now : Nat) (st : AtomicStats) : AtomicStats :=
  { st with
    mActive := TimeCounter.stop now st.mActive
    mIdle := TimeCounter.start now st.mIdle }

/-- `Worker::onNop()` (worker.cpp lines 45-47). -/
def onNop : HResult :=
  HResult.CONTINUE

/-- `Worker::onExit()` (worker.cpp lines 48-50). -/
def onExit : HResult :=
  HResult.FINISH

/-- `Worker::onTask()` (worker.cpp lines 51-58): pull from the parent
pool (`mParent->task()`, the pull being an explicit `Option Task` input
here), and if a task was returned, count a run and execute it.  The
middle component is the log of callables actually executed. -/
def onTask (pull : Option Task) (st : AtomicStats) :
    AtomicStats × List Nat × HResult :=
  match pull with
  | some t => (AtomicStats.run st, (Task.run t).2, HResult.CONTINUE)
  | none => (st, [], HResult.CONTINUE)

/-- `Worker::onDump()` (worker.cpp lines 59-68): take the dump mutex,
emit the five record lines built from a `stats()` snapshot `s`, release
the mutex at scope end, return CONTINUE. -/
def onDump (nm : String) (s : Stats) : List DumpEvent × HResult :=
  ([DumpEvent.acquire LockId.gDumpMutex,
    DumpEvent.line ("Thread: " ++ nm),
    DumpEvent.line ("Number of tasks ran: " ++ toString s.runs),
    DumpEvent.line ("Number of messages processed: " ++ toString s.messages),
    DumpEvent.line ("Time active: " ++ toString s.active ++ " milliseconds"),
    DumpEvent.line ("Time idle: " ++ toString s.idle ++ " milliseconds"),
    DumpEvent.release LockId.gDumpMutex],
   HResult.CONTINUE)

/-- One delivered message together with the environment the worker meets
while handling it: the pool pull the handler would observe on TASK
(`mParent->task()`), and the clock readings (milliseconds) at the three
instrumentation points. -/
structure LoopInput where
  kind : MessageKind
  pull : Option Task
  tBefore : Nat
  tDispatch : Nat
  tAfter : Nat
  deriving DecidableEq, Repr

/-- Modelled from the spec (§4.2, `mq.h` not in the snapshot): dispatch of
one dequeued message to the handler method matching its kind, the handlers
being the ones of worker.cpp. -/
def dispatchMessage (i : LoopInput) (w : WorkerState) : WorkerState × HResult :=
  match i.kind with
  | MessageKind.NOP => (w, onNop)
  | MessageKind.EXIT => (w, onExit)
  | MessageKind.TASK =>
    let r := onTask i.pull w.mStats
    ({ w with mStats := r.1 }, r.2.2)
  | MessageKind.DUMP =>
    (w, (onDump (nameOf w) (AtomicStats.load i.tDispatch w.mStats)).2)

/-- Modelled from the spec (§4.2-§4.3): handling of one delivered message
by the loop: `onBeforeMessage`, dispatch by kind, then `onAfterMessage`
unless the handler returned FINISH. -/
def handleOne (i : LoopInput) (w : WorkerState) : WorkerState × HResult :=
  let w1 : WorkerState := { w with mStats := onBeforeMessage i.tBefore w.mStats }
  let d := dispatchMessage i w1
  match d.2 with
  | HResult.FINISH => (d.1, HResult.FINISH)
  | HResult.CONTINUE =>
    ({ d.1 with mStats := onAfterMessage i.tAfter d.1.mStats }, HResult.CONTINUE)

/-- Modelled from the spec (§4.2): `SignalingQueue::loop` over an explicit
finite delivery sequence.  The Boolean is true when the loop returned
because a handler produced FINISH; it is false when the given sequence was
drained with the loop still blocked waiting for the next message. -/
def loopRun : List LoopInput → WorkerState → WorkerState × Bool
  | [], w => (w, false)
  | i :: rest, w =>
    match handleOne i w with
    | (w1, HResult.FINISH) => (w1, true)
    | (w1, HResult.CONTINUE) => loopRun rest w1

/-- The worker states observed at entry to the loop and after each handled
message, in delivery order (the trace the loop of `loopRun` passes
through, cut at FINISH). -/
def statesTrace : List LoopInput → WorkerState → List WorkerState
  | [], w => [w]
  | i :: rest, w =>
    match handleOne i w with
    | (w1, HResult.FINISH) => [w, w1]
    | (w1, HResult.CONTINUE) => w :: statesTrace rest w1

/-- `Worker::Worker(Pool*, int)` (worker.cpp lines 26-31): store the id,
run `name(nullptr)`, then spawn the thread on `WorkLoop`.  The spawned
thread itself is modelled by `workLoop` below. -/
def construct (id : Int) : WorkerState :=
  setName none { mName := "", mId := id, mStats := AtomicStats.init }

/-- The first statement of `Worker::WorkLoop()` (worker.cpp line 72):
`mStats.idle().start();` executed before the loop awaits any message. -/
def workLoopEnter (t : Nat) (w : WorkerState) : WorkerState :=
  { w with mStats := { w.mStats with mIdle := TimeCounter.start t w.mStats.mIdle } }

/-- `void Worker::WorkLoop()` (worker.cpp lines 71-74): start the idle
timer, then run the mailbox dispatch loop. -/
def workLoop (inputs : List LoopInput) (t : Nat) (w : WorkerState) :
    WorkerState × Bool :=
  loopRun inputs (workLoopEnter t w)

/-- `void Worker::send(Message m)` (worker.cpp lines 106-108): enqueue on
the worker's own mailbox, modelled FIFO as a list of message kinds. -/
def send (m : MessageKind) (q : List MessageKind) : List MessageKind :=
  q ++ [m]

/-- `void Worker::exit()` (worker.cpp lines 119-121): `send(EXIT)`. -/
def exitSend (q : List MessageKind) : List MessageKind :=
  send MessageKind.EXIT q

/-- `void Worker::task()` (worker.cpp lines 123-125): `send(TASK)`. -/
def taskSend (q : List MessageKind) : List MessageKind :=
  send MessageKind.TASK q

/-- `void Worker::dump()` (worker.cpp lines 127-129): `send(DUMP)`. -/
def dumpSend (q : List MessageKind) : List MessageKind :=
  send MessageKind.DUMP q

/-- The externally visible steps of `Worker::~Worker()`. -/
inductive DtorStep where
  | sendMsg (m : MessageKind)
  | joinThread
  deriving DecidableEq, Repr

/-- `Worker::~Worker()` (worker.cpp lines 110-113): `exit()` — which is
`send(EXIT)` — followed by `mWorkThread.join()`. -/
def destructorSteps : List DtorStep :=
  [DtorStep.sendMsg MessageKind.EXIT, DtorStep.joinThread]

/-- The comparison the trace statements use: both counters of the first
state are at most those of the second. -/
def statsLe (a b : WorkerState) : Prop :=
  a.mStats.mMessages ≤ b.mStats.mMessages ∧ a.mStats.mRuns ≤ b.mStats.mRuns

instance : DecidablePred fun p : WorkerState × WorkerState => statsLe p.1 p.2 :=
  fun _ => instDecidableAnd

end Worker

/-! ## Theorems for the claims -/

/-- C1: every Task constructed from a callable carries a priority in the
8-bit ordered domain (MinPriority = 0 < DefaultPriority = 127 <
MaxPriority = 255), and construction from a callable alone yields
DefaultPriority unless the explicit-priority overload is used. -/
theorem task_priority_default_domain :
    Task.MinPriority = 0 ∧ Task.DefaultPriority = 127 ∧ Task.MaxPriority = 255 ∧
    Task.MinPriority < Task.DefaultPriority ∧
    Task.DefaultPriority < Task.MaxPriority ∧
    Task.MaxPriority < 2 ^ 8 ∧
    (∀ c : Nat, (SchedTask.construct c).priority = Task.DefaultPriority) ∧
    (∀ (c : Nat) (p : Task.Priority),
      (SchedTask.constructWithPriority c p).priority = p) ∧
    (∀ c : Nat, (SchedTask.construct c).signalAllocated = true) := by
  refine ⟨rfl, rfl, rfl, by decide, by decide, by decide, ?_, ?_, ?_⟩ <;>
    intros <;> rfl

namespace Worker

/-- C2: in onTask, the run counter is incremented iff the pull from the
parent pool returned a task, that task's callable is then executed; an
empty pull leaves state and run log untouched while onBeforeMessage still
counts the message. -/
theorem onTask_run_counter (pull : Option Task) (st : AtomicStats) (now : Nat) :
    ((onTask pull st).1.mRuns = st.mRuns + 1 ↔ pull.isSome = true) ∧
    (∀ t : Task, pull = some t → (onTask pull st).2.1 = [t.mCallable]) ∧
    (pull = none → (onTask pull st).1 = st ∧ (onTask pull st).2.1 = []) ∧
    (onBeforeMessage now st).mMessages = st.mMessages + 1 := by
  cases pull <;>
    simp [onTask, AtomicStats.run, Task.run, onBeforeMessage, AtomicStats.message]

/-- Witness for C2 at a concrete pull result. -/
theorem onTask_run_counter_witness :
    (onTask (some { mCallable := 7, mFulfilled := false }) AtomicStats.init).2.1 = [7] ∧
    (onTask none AtomicStats.init).1 = AtomicStats.init :=
  ⟨(onTask_run_counter (some { mCallable := 7, mFulfilled := false })
        AtomicStats.init 0).2.1 { mCallable := 7, mFulfilled := false } rfl,
   ((onTask_run_counter none AtomicStats.init 0).2.2.1 rfl).1⟩

/-- C4: the handlers return the prescribed loop results: onNop CONTINUE,
onExit FINISH, onTask CONTINUE whether or not a task was claimed, onDump
CONTINUE. -/
theorem handlers_loop_results :
    onNop = HResult.CONTINUE ∧
    onExit = HResult.FINISH ∧
    (∀ (pull : Option Task) (st : AtomicStats),
      (onTask pull st).2.2 = HResult.CONTINUE) ∧
    (∀ (nm : String) (s : Stats), (onDump nm s).2 = HResult.CONTINUE) := by
  refine ⟨rfl, rfl, fun pull st => ?_, fun nm s => rfl⟩
  cases pull <;> rfl

/-- C8: snapshot equality is field-wise, inequality is its negation, and
the equality is an equivalence (reflexive, symmetric, transitive). -/
theorem stats_beq_fieldwise_equiv (a b c : Stats) :
    (Stats.beq a b = true ↔
      a.messages = b.messages ∧ a.runs = b.runs ∧
      a.idle = b.idle ∧ a.active = b.active) ∧
    Stats.bne a b = !Stats.beq a b ∧
    Stats.beq a a = true ∧
    Stats.beq a b = Stats.beq b a ∧
    (Stats.beq a b = true → Stats.beq b c = true → Stats.beq a c = true) := by
  refine ⟨?_, rfl, ?_, ?_, ?_ ⟩
  · simp [Stats.beq, and_assoc]
  · simp [Stats.beq]
  · simp only [Stats.beq]
    apply Bool.eq_iff_iff.mpr
    simp only [Bool.and_eq_true, beq_iff_eq]
    constructor <;> rintro ⟨⟨⟨h1, h2⟩, h3⟩, h4⟩ <;>
      exact ⟨⟨⟨h1.symm, h2.symm⟩, h3.symm⟩, h4.symm⟩
  · intro hab hbc
    simp only [Stats.beq, Bool.and_eq_true, beq_iff_eq] at hab hbc ⊢
    obtain ⟨⟨⟨a1, a2⟩, a3⟩, a4⟩ := hab
    obtain ⟨⟨⟨b1, b2⟩, b3⟩, b4⟩ := hbc
    exact ⟨⟨⟨a1.trans b1, a2.trans b2⟩, a3.trans b3⟩, a4.trans b4⟩

/-- Witness for C8: transitivity applied at concrete snapshots. -/
theorem stats_beq_fieldwise_equiv_witness :
    Stats.beq { messages := 1, runs := 2, idle := 3, active := 4 }
      { messages := 1, runs := 2, idle := 3, active := 4 } = true :=
  (stats_beq_fieldwise_equiv
      { messages := 1, runs := 2, idle := 3, active := 4 }
      { messages := 1, runs := 2, idle := 3, active := 4 }
      { messages := 1, runs := 2, idle := 3, active := 4 }).2.2.2.2
    (by decide) (by decide)

/-- C9: onDump emits, inside the acquisition and release of the shared
dump mutex, exactly the record lines name, run count, message count,
active milliseconds, idle milliseconds, in that order, built from a
stats() snapshot; the dump mutex is distinct from the queue's lock. -/
theorem onDump_record_serialized (nm : String) (now : Nat) (st : AtomicStats) :
    onDump nm (AtomicStats.load now st) =
      ([DumpEvent.acquire LockId.gDumpMutex,
        DumpEvent.line ("Thread: " ++ nm),
        DumpEvent.line ("Number of tasks ran: " ++ toString st.mRuns),
        DumpEvent.line ("Number of messages processed: " ++ toString st.mMessages),
        DumpEvent.line
          ("Time active: " ++ toString (TimeCounter.value now st.mActive) ++ " milliseconds"),
        DumpEvent.line
          ("Time idle: " ++ toString (TimeCounter.value now st.mIdle) ++ " milliseconds"),
        DumpEvent.release LockId.gDumpMutex],
       HResult.CONTINUE) ∧
    LockId.gDumpMutex ≠ LockId.queueMutex :=
  ⟨rfl, by decide⟩

/-- C10: name(n) with nullptr or the empty string resets the default
name worker[id] using the id fixed at construction; with a non-empty
string the name becomes exactly that string; name() returns the stored
name. -/
theorem setName_resets_or_assigns (w : WorkerState) (s : String) (n : Option String) :
    (setName none w).mName = defaultName w.mId ∧
    (setName (some "") w).mName = defaultName w.mId ∧
    (s.isEmpty = false → (setName (some s) w).mName = s) ∧
    nameOf (setName n w) = (setName n w).mName ∧
    (setName n w).mId = w.mId := by
  refine ⟨rfl, rfl, fun hs => ?_, rfl, ?_⟩
  · simp [setName, hs]
  · cases n with
    | none => rfl
    | some s' =>
      simp only [setName]
      split <;> rfl

/-- Witness for C10 at a concrete non-empty name. -/
theorem setName_resets_or_assigns_witness :
    (setName (some "alice") (construct 3)).mName = "alice" :=
  (setName_resets_or_assigns (construct 3) "alice" none).2.2.1 (by decide)

/-! ### Counter behaviour of one handled message (helper lemmas) -/

/-- Handling one message increments the message counter by exactly one. -/
theorem handleOne_mMessages (i : LoopInput) (w : WorkerState) :
    (handleOne i w).1.mStats.mMessages = w.mStats.mMessages + 1 := by
  cases hk : i.kind <;> cases hp : i.pull <;>
    simp [handleOne, dispatchMessage, onBeforeMessage, onAfterMessage, onTask,
      AtomicStats.message, AtomicStats.run, onNop, onExit, onDump, hk, hp]

/-- Handling one message increments the run counter by zero or one. -/
theorem handleOne_mRuns_bound (i : LoopInput) (w : WorkerState) :
    w.mStats.mRuns ≤ (handleOne i w).1.mStats.mRuns ∧
      (handleOne i w).1.mStats.mRuns ≤ w.mStats.mRuns + 1 := by
  cases hk : i.kind <;> cases hp : i.pull <;>
    simp [handleOne, dispatchMessage, onBeforeMessage, onAfterMessage, onTask,
      AtomicStats.message, AtomicStats.run, onNop, onExit, onDump, hk, hp]

/-- `statsLe` is reflexive. -/
theorem statsLe_refl (w : WorkerState) : statsLe w w :=
  ⟨le_refl _, le_refl _⟩

/-- `statsLe` is transitive. -/
theorem statsLe_trans {a b c : WorkerState}
    (h1 : statsLe a b) (h2 : statsLe b c) : statsLe a c :=
  ⟨h1.1.trans h2.1, h1.2.trans h2.2⟩

/-- One handled message never decreases either counter. -/
theorem handleOne_statsLe (i : LoopInput) (w : WorkerState) :
    statsLe w (handleOne i w).1 :=
  ⟨by rw [handleOne_mMessages i w]; exact Nat.le_succ _,
   (handleOne_mRuns_bound i w).1⟩

/-- Every state in a trace dominates the trace's initial state. -/
theorem statsLe_of_mem_statesTrace :
    ∀ (inputs : List LoopInput) (w x : WorkerState),
      x ∈ statesTrace inputs w → statsLe w x := by
  intro inputs
  induction inputs with
  | nil =>
    intro w x hx
    simp [statesTrace] at hx
    subst hx
    exact statsLe_refl _
  | cons i rest ih =>
    intro w x hx
    simp only [statesTrace] at hx
    rcases hr : handleOne i w with ⟨w1, r⟩
    rw [hr] at hx
    have hw1 : statsLe w w1 := by
      have := handleOne_statsLe i w
      rw [hr] at this
      exact this
    cases r with
    | FINISH =>
      simp at hx
      rcases hx with hx | hx
      · subst hx; exact statsLe_refl _
      · subst hx; exact hw1
    | CONTINUE =>
      simp at hx
      rcases hx with hx | hx
      · subst hx; exact statsLe_refl _
      · exact statsLe_trans hw1 (ih w1 x hx)

/-- The states of a trace are pairwise ordered by `statsLe`. -/
theorem statesTrace_pairwise :
    ∀ (inputs : List LoopInput) (w : WorkerState),
      List.Pairwise statsLe (statesTrace inputs w) := by
  intro inputs
  induction inputs with
  | nil =>
    intro w
    simp [statesTrace]
  | cons i rest ih =>
    intro w
    simp only [statesTrace]
    rcases hr : handleOne i w with ⟨w1, r⟩
    have hw1 : statsLe w w1 := by
      have := handleOne_statsLe i w
      rw [hr] at this
      exact this
    cases r with
    | FINISH =>
      simp [hw1]
    | CONTINUE =>
      refine List.Pairwise.cons ?_ (ih w1)
      intro x hx
      exact statsLe_trans hw1 (statsLe_of_mem_statesTrace rest w1 x hx)

/-- The invariant runs ≤ messages is preserved along a trace. -/
theorem statesTrace_runs_le_messages :
    ∀ (inputs : List LoopInput) (w : WorkerState),
      w.mStats.mRuns ≤ w.mStats.mMessages →
      ∀ x ∈ statesTrace inputs w, x.mStats.mRuns ≤ x.mStats.mMessages := by
  intro inputs
  induction inputs with
  | nil =>
    intro w hw x hx
    simp [statesTrace] at hx
    subst hx
    exact hw
  | cons i rest ih =>
    intro w hw x hx
    simp only [statesTrace] at hx
    rcases hr : handleOne i w with ⟨w1, r⟩
    rw [hr] at hx
    have h1 : w1.mStats.mRuns ≤ w1.mStats.mMessages := by
      have hm := handleOne_mMessages i w
      have hb := (handleOne_mRuns_bound i w).2
      rw [hr] at hm hb
      dsimp only at hm hb
      omega
    cases r with
    | FINISH =>
      simp at hx
      rcases hx with hx | hx
      · subst hx; exact hw
      · subst hx; exact h1
    | CONTINUE =>
      simp at hx
      rcases hx with hx | hx
      · subst hx; exact hw
      · exact ih w1 h1 x hx

/-- C3: along any sequence of handled messages the stats counters are
monotonically non-decreasing, and runs ≤ messages holds at every point of
the worker's trace. -/
theorem stats_monotone_runs_le_messages (id : Int) (t : Nat) (inputs : List LoopInput) :
    List.Pairwise statsLe (statesTrace inputs (workLoopEnter t (construct id))) ∧
    (statesTrace inputs (workLoopEnter t (construct id))).all
      (fun x => Nat.ble x.mStats.mRuns x.mStats.mMessages) = true := by
  refine ⟨statesTrace_pairwise inputs _, ?_⟩
  rw [List.all_eq_true]
  intro x hx
  have h0 : (workLoopEnter t (construct id)).mStats.mRuns ≤
      (workLoopEnter t (construct id)).mStats.mMessages := by
    simp [workLoopEnter, construct, setName, AtomicStats.init]
  have := statesTrace_runs_le_messages inputs _ h0 x hx
  exact Nat.ble_eq.mpr this

/-- C5: the statistics state machine: entering the loop starts the idle
timer; onBeforeMessage stops the idle timer, starts the active timer and
counts the message; onAfterMessage stops the active timer and restarts
the idle timer; and one handled message runs onBeforeMessage, the
dispatch, then onAfterMessage exactly when the result is not FINISH. -/
theorem stats_state_machine :
    (∀ (t : Nat) (w : WorkerState),
      (workLoopEnter t w).mStats.mIdle.runningSince = some t) ∧
    (∀ (t : Nat) (st : AtomicStats),
      (onBeforeMessage t st).mIdle.runningSince = none ∧
      (onBeforeMessage t st).mActive.runningSince = some t ∧
      (onBeforeMessage t st).mMessages = st.mMessages + 1) ∧
    (∀ (t : Nat) (st : AtomicStats),
      (onAfterMessage t st).mActive.runningSince = none ∧
      (onAfterMessage t st).mIdle.runningSince = some t) ∧
    (∀ (i : LoopInput) (w : WorkerState),
      handleOne i w =
        if (dispatchMessage i
              { w with mStats := onBeforeMessage i.tBefore w.mStats }).2 =
            HResult.FINISH then
          ((dispatchMessage i
              { w with mStats := onBeforeMessage i.tBefore w.mStats }).1,
           HResult.FINISH)
        else
          ({ (dispatchMessage i
                { w with mStats := onBeforeMessage i.tBefore w.mStats }).1 with
              mStats := onAfterMessage i.tAfter
                (dispatchMessage i
                  { w with mStats := onBeforeMessage i.tBefore w.mStats }).1.mStats },
           HResult.CONTINUE)) := by
  refine ⟨fun t w => rfl, fun t st => ⟨?_, rfl, rfl⟩, fun t st => ⟨?_, rfl⟩, fun i w => ?_⟩
  · cases h : st.mIdle.runningSince <;>
      simp [onBeforeMessage, AtomicStats.message, TimeCounter.stop, h]
  · cases h : st.mActive.runningSince <;>
      simp [onAfterMessage, TimeCounter.stop, h]
  · simp only [handleOne]
    cases hd : (dispatchMessage i
        { w with mStats := onBeforeMessage i.tBefore w.mStats }).2 <;>
      simp [hd]

/-- C6: construction assigns the default name worker[id], leaves the
counters at zero, and the spawned thread body (WorkLoop) starts the idle
timer before running the mailbox dispatch loop. -/
theorem construct_default_name_idle
    (id : Int) (t : Nat) (inputs : List LoopInput) (w : WorkerState) :
    (construct id).mName = "worker[" ++ toString id ++ "]" ∧
    (construct id).mId = id ∧
    (construct id).mStats = AtomicStats.init ∧
    (workLoopEnter t (construct id)).mStats.mIdle.runningSince = some t ∧
    (workLoopEnter t (construct id)).mStats.mMessages = 0 ∧
    (workLoopEnter t (construct id)).mStats.mRuns = 0 ∧
    workLoop inputs t w = loopRun inputs (workLoopEnter t w) := by
  refine ⟨rfl, rfl, rfl, rfl, rfl, rfl, rfl⟩

/-- The dispatch loop reaches FINISH once the EXIT sent by the destructor
is delivered, whatever was queued ahead of it. -/
theorem loopRun_reaches_finish_on_exit (inputs : List LoopInput) (t : Nat) :
    ∀ w : WorkerState,
      (loopRun (inputs ++
        [{ kind := MessageKind.EXIT, pull := none,
           tBefore := t, tDispatch := t, tAfter := t }]) w).2 = true := by
  induction inputs with
  | nil =>
    intro w
    simp [loopRun, handleOne, dispatchMessage, onExit]
  | cons i rest ih =>
    intro w
    rw [List.cons_append]
    simp only [loopRun]
    split
    · rfl
    · exact ih _

/-- C7: the destructor sends EXIT to the worker's own mailbox and then
joins the thread; exit() is exactly send(EXIT); and once the EXIT message
is delivered the dispatch loop terminates (returns after FINISH), so the
join — and with it destruction — happens only after the thread's loop has
exited. -/
theorem destructor_sends_exit_then_joins
    (q : List MessageKind) (inputs : List LoopInput) (w : WorkerState) (t : Nat) :
    destructorSteps = [DtorStep.sendMsg MessageKind.EXIT, DtorStep.joinThread] ∧
    exitSend q = send MessageKind.EXIT q ∧
    send MessageKind.EXIT q = q ++ [MessageKind.EXIT] ∧
    (loopRun (inputs ++
      [{ kind := MessageKind.EXIT, pull := none,
         tBefore := t, tDispatch := t, tAfter := t }]) w).2 = true :=
  ⟨rfl, rfl, rfl, loopRun_reaches_finish_on_exit inputs t w⟩

end Worker

end Beehive
